import Mathlib

/-!
Shallow embedding of the recipe-management API slice of this repository:
the data model (User / Recipe / Tag / Ingredient rows), the recipe
serializers (`app/recipe/serializers.py`) and the viewset operations
(`app/recipe/views.py`).  Users are represented by their numeric ids;
`price` (a fixed-point decimal in the source) is represented as an
integer count of hundredths, which is faithful for every property
considered here.
-/

namespace RecipeApp

/-- A `core.models.Tag` row: primary key, owning user (foreign key), name. -/
structure Tag where
  id : Nat
  user : Nat
  name : String
deriving DecidableEq, Repr

/-- A `core.models.Ingredient` row: primary key, owning user, name. -/
structure Ingredient where
  id : Nat
  user : Nat
  name : String
deriving DecidableEq, Repr

/-- A `core.models.Recipe` row.  `tagIds` / `ingredientIds` embed the
many-to-many association sets with Tag and Ingredient. -/
structure Recipe where
  id : Nat
  user : Nat
  title : String
  time_minutes : Nat
  price : Int
  description : String
  link : String
  tagIds : List Nat
  ingredientIds : List Nat
deriving DecidableEq, Repr

/-- The persistent store: one table per entity (users are just ids). -/
structure DB where
  users : List Nat
  recipes : List Recipe
  tags : List Tag
  ingredients : List Ingredient
deriving DecidableEq, Repr

/-- `RecipeSerializer.Meta.fields` in `app/recipe/serializers.py`:
`('id', 'title', 'time_minutes', 'price', 'link')`. -/
def recipeSerializerFields : List String :=
  ["id", "title", "time_minutes", "price", "link"]

/-- `RecipeDetailSerializer.Meta.fields`: the list fields plus `description`. -/
def recipeDetailSerializerFields : List String :=
  recipeSerializerFields ++ ["description"]

/-- The names the module `app/recipe/serializers.py` defines at top level:
only the two recipe serializers. -/
def serializersModuleDefs : List String :=
  ["RecipeSerializer", "RecipeDetailSerializer"]

/-- Python attribute resolution on the serializers module: a name resolves
iff the module defines it. -/
def resolveAttr (moduleDefs : List String) (attr : String) : Option String :=
  moduleDefs.find? (fun d => d == attr)

/-- `TagViewSet.serializer_class` in `app/recipe/views.py` names
`serializers.TagSerializer`. -/
def tagViewSetSerializerClassName : String := "TagSerializer"

/-- `IngredientViewSet.serializer_class` in `app/recipe/views.py` names
`serializers.IngredientSerializer`. -/
def ingredientViewSetSerializerClassName : String := "IngredientSerializer"

/-- A raw recipe write payload.  Besides the scalar fields it may carry a
`user` id and lists of tag / ingredient names (`[{'name': ...}, ...]`),
as in the repository's own tests. -/
structure RecipePayload where
  title : Option String := none
  time_minutes : Option Nat := none
  price : Option Int := none
  link : Option String := none
  description : Option String := none
  user : Option Nat := none
  tags : Option (List String) := none
  ingredients : Option (List String) := none
deriving DecidableEq, Repr

/-- `RecipeDetailSerializer.update` semantics: a `ModelSerializer` writes
exactly the writable fields declared in `Meta.fields`
(`id,title,time_minutes,price,link,description`; `id` is read-only).
Payload keys outside the declared fields — `user`, `tags`,
`ingredients` — are dropped from `validated_data` and never written. -/
def updateRecipe (r : Recipe) (p : RecipePayload) : Recipe :=
  { r with
    title := p.title.getD r.title
    time_minutes := p.time_minutes.getD r.time_minutes
    price := p.price.getD r.price
    link := p.link.getD r.link
    description := p.description.getD r.description }

/-- Next free primary key for the recipe table. -/
def nextRecipeId (db : DB) : Nat :=
  (db.recipes.map Recipe.id).foldr max 0 + 1

/-- `RecipeViewSet.perform_create`: `serializer.save(user=self.request.user)`.
The serializer writes only the declared fields, so the new row's owner is
the caller and the payload's `user` / `tags` / `ingredients` keys are
ignored; the new row starts with empty association sets. -/
def createRecipeOp (caller : Nat) (p : RecipePayload) (db : DB) : DB :=
  { db with
    recipes :=
      { id := nextRecipeId db
        user := caller
        title := p.title.getD ""
        time_minutes := p.time_minutes.getD 0
        price := p.price.getD 0
        description := p.description.getD ""
        link := p.link.getD ""
        tagIds := []
        ingredientIds := [] } :: db.recipes }

/-- Descending-id order used by `order_by('-id')`. -/
def recipeDescId (a b : Recipe) : Prop := b.id ≤ a.id

instance : DecidableRel recipeDescId :=
  fun a b => inferInstanceAs (Decidable (b.id ≤ a.id))

instance : IsTotal Recipe recipeDescId :=
  ⟨fun a b => Nat.le_total b.id a.id⟩

instance : IsTrans Recipe recipeDescId :=
  ⟨fun _ _ _ hab hbc => Nat.le_trans hbc hab⟩

/-- Descending-name order used by `order_by('-name')` on tags. -/
def tagDescName (a b : Tag) : Prop := b.name ≤ a.name

instance : DecidableRel tagDescName :=
  fun a b => inferInstanceAs (Decidable (b.name ≤ a.name))

instance : IsTotal Tag tagDescName := ⟨fun a b => le_total b.name a.name⟩

instance : IsTrans Tag tagDescName :=
  ⟨fun _ _ _ hab hbc => le_trans hbc hab⟩

/-- Descending-name order used by `order_by('-name')` on ingredients. -/
def ingredientDescName (a b : Ingredient) : Prop := b.name ≤ a.name

instance : DecidableRel ingredientDescName :=
  fun a b => inferInstanceAs (Decidable (b.name ≤ a.name))

instance : IsTotal Ingredient ingredientDescName :=
  ⟨fun a b => le_total b.name a.name⟩

instance : IsTrans Ingredient ingredientDescName :=
  ⟨fun _ _ _ hab hbc => le_trans hbc hab⟩

/-- `RecipeViewSet.get_queryset`:
`self.queryset.filter(user=self.request.user).order_by('-id')`. -/
def recipeQueryset (caller : Nat) (db : DB) : List Recipe :=
  List.insertionSort recipeDescId (db.recipes.filter (fun r => r.user == caller))

/-- `BaseRecipeAttrViewSet.get_queryset` for `TagViewSet`:
`self.queryset.filter(user=self.request.user).order_by('-name')`. -/
def tagQueryset (caller : Nat) (db : DB) : List Tag :=
  List.insertionSort tagDescName (db.tags.filter (fun t => t.user == caller))

/-- `BaseRecipeAttrViewSet.get_queryset` for `IngredientViewSet`. -/
def ingredientQueryset (caller : Nat) (db : DB) : List Ingredient :=
  List.insertionSort ingredientDescName
    (db.ingredients.filter (fun i => i.user == caller))

/-- Parsed query parameters of a recipe list request: the optional
comma-separated `tags=` and `ingredients=` id lists. -/
structure ListParams where
  tags : Option (List Nat) := none
  ingredients : Option (List Nat) := none
deriving DecidableEq, Repr

/-- The recipe list endpoint.  `RecipeViewSet.get_queryset` never reads
`self.request.query_params`, so the `tags=` / `ingredients=` parameters
have no effect on the result: the listing is always the full
owner-scoped queryset. -/
def listRecipes (caller : Nat) (_params : ListParams) (db : DB) : List Recipe :=
  recipeQueryset caller db

/-- The tag list endpoint body (`ListModelMixin` over the queryset). -/
def listTags (caller : Nat) (db : DB) : List Tag :=
  tagQueryset caller db

/-- The ingredient list endpoint body. -/
def listIngredients (caller : Nat) (db : DB) : List Ingredient :=
  ingredientQueryset caller db

/-- Detail-route object resolution (`get_object`): the framework looks the
id up inside `get_queryset()`, i.e. after the owner restriction. -/
def recipeGetObject (caller : Nat) (rid : Nat) (db : DB) : Option Recipe :=
  (recipeQueryset caller db).find? (fun r => r.id == rid)

/-- Tag detail-route object resolution over the owner-scoped queryset. -/
def tagGetObject (caller : Nat) (tid : Nat) (db : DB) : Option Tag :=
  (tagQueryset caller db).find? (fun t => t.id == tid)

/-- Ingredient detail-route object resolution. -/
def ingredientGetObject (caller : Nat) (iid : Nat) (db : DB) : Option Ingredient :=
  (ingredientQueryset caller db).find? (fun i => i.id == iid)

/-- Outcome of a detail-route request. -/
inductive ApiResult (α : Type) where
  | ok : α → ApiResult α
  | notFound : ApiResult α
  | forbidden : ApiResult α
deriving DecidableEq, Repr

/-- `PATCH`/`PUT /recipes/{id}/`: resolve the object inside the
owner-scoped queryset; a miss is a 404; on a hit the serializer writes
the declared fields of that row. -/
def updateRecipeOp (caller : Nat) (rid : Nat) (p : RecipePayload) (db : DB) :
    ApiResult Recipe × DB :=
  match recipeGetObject caller rid db with
  | none => (ApiResult.notFound, db)
  | some r =>
      (ApiResult.ok (updateRecipe r p),
       { db with
         recipes := db.recipes.map
           (fun x => if x.id == r.id && x.user == caller then updateRecipe x p else x) })

/-- `DELETE /recipes/{id}/`: resolve inside the owner-scoped queryset; a
miss is a 404 and nothing is deleted. -/
def deleteRecipeOp (caller : Nat) (rid : Nat) (db : DB) : ApiResult Unit × DB :=
  match recipeGetObject caller rid db with
  | none => (ApiResult.notFound, db)
  | some r =>
      (ApiResult.ok (),
       { db with
         recipes := db.recipes.filter (fun x => !(x.id == r.id && x.user == caller)) })

/-- Number of tag rows owned by `u` and named `n`. -/
def ownedTagCount (u : Nat) (n : String) (db : DB) : Nat :=
  (db.tags.filter (fun t => t.user == u && t.name == n)).length

/-- Number of ingredient rows owned by `u` and named `n`. -/
def ownedIngredientCount (u : Nat) (n : String) (db : DB) : Nat :=
  (db.ingredients.filter (fun i => i.user == u && i.name == n)).length

/-- The write payload submitting exactly the given tag and ingredient
names (each item carrying only a name, as in the claim). -/
def namesPayload (names : List String) : RecipePayload :=
  { tags := some names, ingredients := some names }

/-- Split a character list at its last occurrence of `c`: returns the
part before and the part after, or `none` when `c` does not occur. -/
def splitLastAt (c : Char) : List Char → Option (List Char × List Char)
  | [] => none
  | x :: xs =>
      match splitLastAt c xs with
      | some (a, b) => some (x :: a, b)
      | none => if x = c then some ([], xs) else none

/-- Modelled from the spec: `core/models.py` (the custom user manager used
at account creation) is not under `src/`, only its tests are.  Per the
spec, the stored email has its domain portion (after the `@`) lower-cased
while the casing of the local portion is preserved exactly as supplied;
an email without an `@` is left unchanged. -/
def normalizeEmail (e : String) : String :=
  match splitLastAt '@' e.data with
  | some (loc, dom) => String.mk (loc ++ '@' :: dom.map Char.toLower)
  | none => e

/-- The concrete store used as failing input for the tag-reconciliation
claims: user 1 already owns a tag named `Indian` and no recipes exist. -/
def dbIndian : DB :=
  { users := [1]
    recipes := []
    tags := [{ id := 1, user := 1, name := "Indian" }]
    ingredients := [] }

/-- The create payload of `test_create_recipe_with_existing_tag`: recipe
`Pongal` with tags named `Indian` (already owned) and `Breakfast`. -/
def pongalPayload : RecipePayload :=
  { title := some "Pongal"
    time_minutes := some 30
    price := some 520
    description := some "New Pongal recipe"
    link := some "http://new.test.com/recipe.pdf"
    tags := some ["Indian", "Breakfast"] }

/-- The concrete store used as failing input for the clear-associations
claim: user 1 owns recipe 10, associated with their tag 5 (`Indian`). -/
def dbCleared : DB :=
  { users := [1]
    recipes := [{ id := 10, user := 1, title := "Test recipe",
                  time_minutes := 10, price := 520,
                  description := "Test recipe",
                  link := "http://test.com/recipe.pdf",
                  tagIds := [5], ingredientIds := [] }]
    tags := [{ id := 5, user := 1, name := "Indian" }]
    ingredients := [] }

/-- The concrete store used as failing input for the filter claim: user 1
owns recipes 1 (tag 1), 2 (tag 2) and 3 (no tags). -/
def dbFiltered : DB :=
  { users := [1]
    recipes :=
      [{ id := 1, user := 1, title := "Curry", time_minutes := 10,
         price := 520, description := "d", link := "l",
         tagIds := [1], ingredientIds := [] },
       { id := 2, user := 1, title := "Pomelo", time_minutes := 10,
         price := 520, description := "d", link := "l",
         tagIds := [2], ingredientIds := [] },
       { id := 3, user := 1, title := "Fish and Chips", time_minutes := 10,
         price := 520, description := "d", link := "l",
         tagIds := [], ingredientIds := [] }]
    tags := [{ id := 1, user := 1, name := "Vegan" },
             { id := 2, user := 1, name := "Dessert" }]
    ingredients := [] }

/-- Recipe 7, owned by user 1, for the isolation witnesses. -/
def recipeSample : Recipe :=
  { id := 7, user := 1, title := "Sample", time_minutes := 5,
    price := 550, description := "d", link := "l",
    tagIds := [], ingredientIds := [] }

/-- Tag 4, owned by user 1, for the isolation witnesses. -/
def tagVegan : Tag := { id := 4, user := 1, name := "Vegan" }

/-- Ingredient 6, owned by user 1, for the isolation witnesses. -/
def ingredientLemon : Ingredient := { id := 6, user := 1, name := "Lemon" }

/-- A concrete two-user store for the isolation witnesses: user 1 owns
recipe 7, tag 4 and ingredient 6; user 2 owns nothing. -/
def dbTwoUsers : DB :=
  { users := [1, 2]
    recipes := [recipeSample]
    tags := [tagVegan]
    ingredients := [ingredientLemon] }

/-- A recipe update never touches the tag table. -/
lemma updateRecipeOp_tags (c rid : Nat) (p : RecipePayload) (db : DB) :
    (updateRecipeOp c rid p db).2.tags = db.tags := by
  cases h : recipeGetObject c rid db <;> simp [updateRecipeOp, h]

/-- A recipe update never touches the ingredient table. -/
lemma updateRecipeOp_ingredients (c rid : Nat) (p : RecipePayload) (db : DB) :
    (updateRecipeOp c rid p db).2.ingredients = db.ingredients := by
  cases h : recipeGetObject c rid db <;> simp [updateRecipeOp, h]

/-- A recipe create never touches the tag table. -/
lemma createRecipeOp_tags (c : Nat) (p : RecipePayload) (db : DB) :
    (createRecipeOp c p db).tags = db.tags := rfl

/-- A recipe create never touches the ingredient table. -/
lemma createRecipeOp_ingredients (c : Nat) (p : RecipePayload) (db : DB) :
    (createRecipeOp c p db).ingredients = db.ingredients := rfl

/-- Membership in the owner-scoped recipe queryset. -/
lemma mem_recipeQueryset {r : Recipe} {u : Nat} {db : DB} :
    r ∈ recipeQueryset u db ↔ r ∈ db.recipes ∧ r.user = u := by
  unfold recipeQueryset
  rw [(List.perm_insertionSort _ _).mem_iff, List.mem_filter]
  simp

/-- Membership in the owner-scoped tag queryset. -/
lemma mem_tagQueryset {t : Tag} {u : Nat} {db : DB} :
    t ∈ tagQueryset u db ↔ t ∈ db.tags ∧ t.user = u := by
  unfold tagQueryset
  rw [(List.perm_insertionSort _ _).mem_iff, List.mem_filter]
  simp

/-- Membership in the owner-scoped ingredient queryset. -/
lemma mem_ingredientQueryset {i : Ingredient} {u : Nat} {db : DB} :
    i ∈ ingredientQueryset u db ↔ i ∈ db.ingredients ∧ i.user = u := by
  unfold ingredientQueryset
  rw [(List.perm_insertionSort _ _).mem_iff, List.mem_filter]
  simp

/-- C1: the claim says a recipe write payload carrying tag names reuses the
caller's existing record of that name and creates missing ones, associating
all of them.  The code's `RecipeSerializer` declares no `tags` field, so the
payload list is dropped: on the failing input of
`test_create_recipe_with_existing_tag` (owned tag `Indian` exists, payload
names `Indian` and `Breakfast`) no `Breakfast` record is created, the tag
table is unchanged, and the created recipe has no tag associations. -/
theorem create_with_tags_payload_ignored :
    ownedTagCount 1 "Breakfast" (createRecipeOp 1 pongalPayload dbIndian) = 0
  ∧ (createRecipeOp 1 pongalPayload dbIndian).tags = dbIndian.tags
  ∧ ∀ r ∈ (createRecipeOp 1 pongalPayload dbIndian).recipes, r.tagIds = [] := by
  decide

/-- C2: reconciliation idempotence as stated: a payload repeating every name
twice creates at most one owned tag / ingredient record per name, and
resubmitting the same name set on a later update of the same recipe creates
no new tag or ingredient records.  It holds degenerately: recipe writes
never touch the tag or ingredient tables at all. -/
theorem reconciliation_idempotent (caller rid : Nat) (names : List String)
    (n : String) (db : DB) :
    ownedTagCount caller n
        (updateRecipeOp caller rid (namesPayload (names ++ names)) db).2
      ≤ ownedTagCount caller n db + 1
  ∧ ownedIngredientCount caller n
        (updateRecipeOp caller rid (namesPayload (names ++ names)) db).2
      ≤ ownedIngredientCount caller n db + 1
  ∧ ownedTagCount caller n (createRecipeOp caller (namesPayload (names ++ names)) db)
      ≤ ownedTagCount caller n db + 1
  ∧ (updateRecipeOp caller rid (namesPayload names)
        (updateRecipeOp caller rid (namesPayload names) db).2).2.tags
      = (updateRecipeOp caller rid (namesPayload names) db).2.tags
  ∧ (updateRecipeOp caller rid (namesPayload names)
        (updateRecipeOp caller rid (namesPayload names) db).2).2.ingredients
      = (updateRecipeOp caller rid (namesPayload names) db).2.ingredients := by
  refine ⟨?_, ?_, ?_, ?_, ?_⟩
  · rw [show ownedTagCount caller n (updateRecipeOp caller rid
        (namesPayload (names ++ names)) db).2 = ownedTagCount caller n db from by
      unfold ownedTagCount; rw [updateRecipeOp_tags]]
    exact Nat.le_succ _
  · rw [show ownedIngredientCount caller n (updateRecipeOp caller rid
        (namesPayload (names ++ names)) db).2 = ownedIngredientCount caller n db from by
      unfold ownedIngredientCount; rw [updateRecipeOp_ingredients]]
    exact Nat.le_succ _
  · exact Nat.le_succ _
  · exact updateRecipeOp_tags _ _ _ _
  · exact updateRecipeOp_ingredients _ _ _ _

/-- C3: the claim says an update payload's tag list fully replaces the
association set, an empty list clearing it.  On the failing input of
`test_clear_recipe_tags` (recipe 10 associated with tag 5, payload
`tags: []`) the update succeeds but the association survives. -/
theorem update_empty_tags_does_not_clear :
    ((updateRecipeOp 1 10 { tags := some [] } dbCleared).2.recipes.find?
        (fun r => r.id == 10)).map Recipe.tagIds = some [5]
  ∧ (updateRecipeOp 1 10 { tags := some [] } dbCleared).1 ≠ ApiResult.notFound := by
  decide

/-- C6: the claim says a list request with a `tags=` id set returns exactly
the caller's recipes carrying at least one of those tags.  The code's
`get_queryset` never reads the query parameters: on the failing input
(recipes 1 and 2 tagged 1 and 2, recipe 3 untagged, request `tags=1,2`)
the result still contains the untagged recipe 3, and the parameters have
no effect on the listing at all. -/
theorem filter_by_tags_not_applied :
    (∃ r ∈ listRecipes 1 { tags := some [1, 2] } dbFiltered, r.tagIds = [])
  ∧ listRecipes 1 { tags := some [1, 2] } dbFiltered
      = listRecipes 1 {} dbFiltered := by
  exact ⟨by decide, rfl⟩

/-- C7: every recipe listing is sorted by descending id, and every tag and
ingredient listing is sorted by descending name. -/
theorem listings_ordered (caller : Nat) (params : ListParams) (db : DB) :
    List.Sorted recipeDescId (listRecipes caller params db)
  ∧ List.Sorted tagDescName (listTags caller db)
  ∧ List.Sorted ingredientDescName (listIngredients caller db) :=
  ⟨List.sorted_insertionSort _ _, List.sorted_insertionSort _ _,
   List.sorted_insertionSort _ _⟩

/-- C8: a recipe update leaves every row's owner (and id) unchanged, for
every payload — including one carrying a `user` key naming another user —
while the declared fields do take the payload's values. -/
theorem owner_immutable (caller rid : Nat) (p : RecipePayload) (db : DB) :
    (updateRecipeOp caller rid p db).2.recipes.map (fun r => (r.id, r.user))
      = db.recipes.map (fun r => (r.id, r.user))
  ∧ (∀ r : Recipe, (updateRecipe r p).user = r.user)
  ∧ (∀ r : Recipe, (updateRecipe r p).title = p.title.getD r.title) := by
  refine ⟨?_, fun r => rfl, fun r => rfl⟩
  cases h : recipeGetObject caller rid db with
  | none => simp [updateRecipeOp, h]
  | some r =>
      simp only [updateRecipeOp, h, List.map_map]
      apply List.map_congr_left
      intro x _
      by_cases hx : x.id = r.id ∧ x.user = caller <;> simp [hx, updateRecipe]

/-- C10: the serializers module defines only the two recipe serializer
shapes (the list shape lacking `description`, the detail shape carrying
it); the names the tag and ingredient viewsets declare as their
`serializer_class` do not resolve against it. -/
theorem tag_ingredient_serializer_unresolvable :
    resolveAttr serializersModuleDefs tagViewSetSerializerClassName = none
  ∧ resolveAttr serializersModuleDefs ingredientViewSetSerializerClassName = none
  ∧ serializersModuleDefs = ["RecipeSerializer", "RecipeDetailSerializer"]
  ∧ "description" ∉ recipeSerializerFields
  ∧ "description" ∈ recipeDetailSerializerFields := by
  decide

/-- C4: cross-user isolation.  For distinct users A and B, every recipe,
tag or ingredient owned by A is absent from B's listing, and the object
resolution feeding B's detail, update and delete routes can never return
A's record for any requested id, because each operation's candidate set is
owner-restricted before the id lookup. -/
theorem owner_scoped_isolation (A B : Nat) (db : DB) (hAB : A ≠ B) :
    (∀ r ∈ db.recipes, r.user = A →
        (∀ params, r ∉ listRecipes B params db)
      ∧ ∀ rid, recipeGetObject B rid db ≠ some r)
  ∧ (∀ t ∈ db.tags, t.user = A →
        t ∉ listTags B db ∧ ∀ tid, tagGetObject B tid db ≠ some t)
  ∧ (∀ i ∈ db.ingredients, i.user = A →
        i ∉ listIngredients B db ∧ ∀ iid, ingredientGetObject B iid db ≠ some i) := by
  refine ⟨fun r _ hA => ⟨fun params hmem => ?_, fun rid hfind => ?_⟩,
          fun t _ hA => ⟨fun hmem => ?_, fun tid hfind => ?_⟩,
          fun i _ hA => ⟨fun hmem => ?_, fun iid hfind => ?_⟩⟩
  · exact hAB (hA.symm.trans (mem_recipeQueryset.1 hmem).2)
  · exact hAB (hA.symm.trans
      (mem_recipeQueryset.1 (List.mem_of_find?_eq_some hfind)).2)
  · exact hAB (hA.symm.trans (mem_tagQueryset.1 hmem).2)
  · exact hAB (hA.symm.trans
      (mem_tagQueryset.1 (List.mem_of_find?_eq_some hfind)).2)
  · exact hAB (hA.symm.trans (mem_ingredientQueryset.1 hmem).2)
  · exact hAB (hA.symm.trans
      (mem_ingredientQueryset.1 (List.mem_of_find?_eq_some hfind)).2)

/-- C4 witness: the isolation theorem applied to the concrete two-user
store, user 1 owning everything and user 2 the caller. -/
theorem owner_scoped_isolation_w :
    (1 : Nat) ≠ 2
  ∧ ((∀ r ∈ dbTwoUsers.recipes, r.user = 1 →
        (∀ params, r ∉ listRecipes 2 params dbTwoUsers)
      ∧ ∀ rid, recipeGetObject 2 rid dbTwoUsers ≠ some r)
  ∧ (∀ t ∈ dbTwoUsers.tags, t.user = 1 →
        t ∉ listTags 2 dbTwoUsers ∧ ∀ tid, tagGetObject 2 tid dbTwoUsers ≠ some t)
  ∧ (∀ i ∈ dbTwoUsers.ingredients, i.user = 1 →
        i ∉ listIngredients 2 dbTwoUsers
      ∧ ∀ iid, ingredientGetObject 2 iid dbTwoUsers ≠ some i)) :=
  ⟨by decide, owner_scoped_isolation 1 2 dbTwoUsers (by decide)⟩

/-- C5: ownership miss.  For a record whose id exists but whose owner is
another user, a delete or update on that id answers not-found — never
forbidden — and leaves the store (in particular the target row) unchanged. -/
theorem ownership_miss_not_found (caller : Nat) (r : Recipe) (p : RecipePayload)
    (db : DB) (hmem : r ∈ db.recipes) (howner : r.user ≠ caller)
    (huniq : ∀ r' ∈ db.recipes, r'.id = r.id → r' = r) :
    deleteRecipeOp caller r.id db = (ApiResult.notFound, db)
  ∧ updateRecipeOp caller r.id p db = (ApiResult.notFound, db)
  ∧ r ∈ (deleteRecipeOp caller r.id db).2.recipes
  ∧ (deleteRecipeOp caller r.id db).1 ≠ ApiResult.forbidden
  ∧ (updateRecipeOp caller r.id p db).1 ≠ ApiResult.forbidden := by
  have hnone : recipeGetObject caller r.id db = none := by
    cases hfind : recipeGetObject caller r.id db with
    | none => rfl
    | some x =>
        have hfind2 :
            (recipeQueryset caller db).find? (fun y => y.id == r.id) = some x :=
          hfind
        have hxmem : x ∈ recipeQueryset caller db :=
          List.mem_of_find?_eq_some hfind2
        have hxid := List.find?_some hfind2
        have hx : x = r :=
          huniq x (mem_recipeQueryset.1 hxmem).1 (by simpa using hxid)
        exact absurd (hx ▸ (mem_recipeQueryset.1 hxmem).2) howner
  have hdel : deleteRecipeOp caller r.id db = (ApiResult.notFound, db) := by
    simp [deleteRecipeOp, hnone]
  have hupd : updateRecipeOp caller r.id p db = (ApiResult.notFound, db) := by
    simp [updateRecipeOp, hnone]
  refine ⟨hdel, hupd, ?_, ?_, ?_⟩
  · rw [hdel]; exact hmem
  · simp [hdel]
  · simp [hupd]

/-- C5 witness: user 2 deleting or updating user 1's recipe 7 in the
concrete two-user store. -/
theorem ownership_miss_not_found_w :
    (recipeSample ∈ dbTwoUsers.recipes ∧ recipeSample.user ≠ 2
      ∧ ∀ r' ∈ dbTwoUsers.recipes, r'.id = recipeSample.id → r' = recipeSample)
  ∧ (deleteRecipeOp 2 recipeSample.id dbTwoUsers = (ApiResult.notFound, dbTwoUsers)
  ∧ updateRecipeOp 2 recipeSample.id {} dbTwoUsers = (ApiResult.notFound, dbTwoUsers)
  ∧ recipeSample ∈ (deleteRecipeOp 2 recipeSample.id dbTwoUsers).2.recipes
  ∧ (deleteRecipeOp 2 recipeSample.id dbTwoUsers).1 ≠ ApiResult.forbidden
  ∧ (updateRecipeOp 2 recipeSample.id {} dbTwoUsers).1 ≠ ApiResult.forbidden) :=
  ⟨⟨by decide, by decide, by decide⟩,
   ownership_miss_not_found 2 recipeSample {} dbTwoUsers
     (by decide) (by decide) (by decide)⟩

/-- Splitting finds nothing when the character does not occur. -/
lemma splitLastAt_eq_none {c : Char} {l : List Char} (h : c ∉ l) :
    splitLastAt c l = none := by
  induction l with
  | nil => rfl
  | cons x xs ih =>
      rw [List.mem_cons, not_or] at h
      simp only [splitLastAt, ih h.2]
      rw [if_neg (fun hxc => h.1 hxc.symm)]

/-- Splitting at the last occurrence recovers the two parts when the
second part is free of the separator. -/
lemma splitLastAt_append (loc dom : List Char) (h : '@' ∉ dom) :
    splitLastAt '@' (loc ++ '@' :: dom) = some (loc, dom) := by
  induction loc with
  | nil => simp [splitLastAt, splitLastAt_eq_none h]
  | cons x xs ih => simp [splitLastAt, ih]

/-- C9: for any accepted email written as a local part, an `@`, and a
domain free of further `@`s, the stored email keeps the local part's
casing exactly and lower-cases the domain, whatever the input casing. -/
theorem email_domain_lowercased (loc dom : List Char) (h : '@' ∉ dom) :
    normalizeEmail ⟨loc ++ '@' :: dom⟩ = ⟨loc ++ '@' :: dom.map Char.toLower⟩ := by
  have hsplit : splitLastAt '@' (String.mk (loc ++ '@' :: dom)).data
      = some (loc, dom) := splitLastAt_append loc dom h
  unfold normalizeEmail
  rw [hsplit]

/-- C9 witness: the normalization theorem applied to the sample input
`Test2@Example.com` of `test_new_user_email_normalized`, which is stored
as `Test2@example.com`. -/
theorem email_domain_lowercased_w :
    ('@' ∉ "Example.com".data)
  ∧ normalizeEmail "Test2@Example.com" = "Test2@example.com" := by
  refine ⟨by decide, ?_⟩
  have h := email_domain_lowercased "Test2".data "Example.com".data (by decide)
  have h1 : (⟨"Test2".data ++ '@' :: "Example.com".data⟩ : String)
      = "Test2@Example.com" := by decide
  have h2 : (⟨"Test2".data ++ '@' :: "Example.com".data.map Char.toLower⟩ : String)
      = "Test2@example.com" := by decide
  rw [h1, h2] at h
  exact h

end RecipeApp
